import Mathlib

/-
Verification of the `spawn` process-execution library (src/spawn.py).

The development shallowly embeds the library's pure logic in Lean:
Python strings are `List Char`, Python `None` is `Option.none`, Python
exceptions (assertion failures, TypeError, ValueError) are the error side
of `Except`, and the sentinel stream-mode integers are an inductive type
carrying the source's numeric codes.  Stateful operations (`start`,
`wait`, `poll`, thread spawning) are embedded as explicit functions from
the object's constructed state to descriptions of the effects the source
performs: the resolved stdio handles, the bodies of the background
threads, and the argument lists passed to the underlying OS process
handle.  Everything is computable so concrete runs can be checked with
`decide` / `rfl`.
-/

/-! ## Python string helpers -/

/-- Whitespace recognised by Python `str.split()` with no arguments. -/
def pyIsSpace (c : Char) : Bool :=
  c = ' ' ∨ c = '\t' ∨ c = '\n' ∨ c = '\r' ∨ c = '\x0b' ∨ c = '\x0c'

/-- Accumulator worker for `pySplit`; `acc` holds the current token reversed. -/
def pySplitAux : List Char → List Char → List (List Char)
  | [], acc => if acc = [] then [] else [acc.reverse]
  | c :: rest, acc =>
    if pyIsSpace c then
      if acc = [] then pySplitAux rest [] else acc.reverse :: pySplitAux rest []
    else pySplitAux rest (c :: acc)

/-- Python `template.split()`: split on runs of whitespace, dropping empty tokens. -/
def pySplit (s : List Char) : List (List Char) := pySplitAux s []

/-- Number of non-overlapping occurrences of the two-character sequence `%%`,
as computed by Python `template.count(doubled marker)`. -/
def countDoubles : List Char → Nat
  | [] => 0
  | [_] => 0
  | a :: b :: rest =>
    if a = '%' ∧ b = '%' then countDoubles rest + 1 else countDoubles (b :: rest)

/-- src/spawn.py:23-24: `template.count` of the marker minus twice the count of
the doubled marker, as a Python int. -/
def _spec_count (template : List Char) : Int :=
  (template.count '%' : Int) - 2 * (countDoubles template : Int)

/-- Natural-number value of `_spec_count` (it is never negative; Python slices
`args` with it, which for a nonnegative index is `take` / `drop`). -/
def specCountN (template : List Char) : Nat :=
  template.count '%' - 2 * countDoubles template

/-- Total placeholder count of a whitespace-tokenized template: the sum of the
per-token spec counts, doubled markers counting as zero. -/
def totalSpecCount (template : List Char) : Nat :=
  ((pySplit template).map specCountN).sum

/-! ## Python errors -/

/-- The Python exception kinds the embedded code can raise. -/
inductive PyErr where
  | assertionErr
  | typeErr
  | valueErr
  | timeoutExpired
  | fuelErr
deriving DecidableEq, Repr

/-- Python percent-formatting of a template against a tuple of already-formatted
values, as used by `parts[i] % part_args` (src/spawn.py:33).  A doubled marker
produces one literal marker character; a marker followed by a conversion
character consumes the next value (the library uses string conversions, so the
substituted text is the value itself); a trailing lone marker is a ValueError;
too few values or leftover values raise. -/
def pyFormat : List Char → List (List Char) → Except PyErr (List Char)
  | [], vals => if vals = [] then Except.ok [] else Except.error PyErr.typeErr
  | ['%'], _ => Except.error PyErr.valueErr
  | '%' :: '%' :: rest, vals => (pyFormat rest vals).map (fun r => '%' :: r)
  | '%' :: _ :: _, [] => Except.error PyErr.typeErr
  | '%' :: _ :: rest, v :: vals => (pyFormat rest vals).map (fun r => v ++ r)
  | c :: rest, vals => (pyFormat rest vals).map (fun r => c :: r)

/-- The loop body of `cmdline` (src/spawn.py:30-34): formats each token against
the values it consumes, advancing through the remaining values left to right.
The source stores each formatted token back into `parts`, whose final value this
returns (the source then discards it). -/
def cmdlineLoop : List (List Char) → List (List Char) → Except PyErr (List (List Char))
  | [], _ => Except.ok []
  | part :: parts, args => do
    let part_args := args.take (specCountN part)
    let fp ← pyFormat part part_args
    let rest ← cmdlineLoop parts (args.drop (specCountN part))
    Except.ok (fp :: rest)

/-- src/spawn.py:26-34.  With no args the split parts are returned.  Otherwise
the loop formats the tokens in place — and the function then falls off the end
of the loop with no return statement, so Python returns `None` (here
`Option.none`); the formatted list is discarded.  The `Except` layer carries any
exception the loop's formatting raises. -/
def cmdline (template : List Char) (args : List (List Char)) :
    Except PyErr (Option (List (List Char))) :=
  let parts := pySplit template
  if args = [] then Except.ok (some parts)
  else do
    let _ ← cmdlineLoop parts args
    Except.ok none

/-! ## Stream-mode values -/

/-- A Python value occupying a stream-mode position: one of the module-level
sentinel integers (src/spawn.py:5-12), a file-like object with a `fileno`
method (identified by a number), or Python `None`. -/
inductive StreamVal where
  | sentinel (n : Int)
  | fileObj (fd : Nat)
  | pyNone
deriving DecidableEq, Repr

def IGNORE : StreamVal := StreamVal.sentinel (-1)

def CAPTURE : StreamVal := StreamVal.sentinel (-2)

def INTERACT : StreamVal := StreamVal.sentinel (-3)

def PIPE : StreamVal := StreamVal.sentinel (-4)

def STDIN : StreamVal := StreamVal.sentinel (-5)

def STDOUT : StreamVal := StreamVal.sentinel (-6)

def STDERR : StreamVal := StreamVal.sentinel (-7)

def _UNDEFINED : StreamVal := StreamVal.sentinel (-8)

/-- Whether a value has a `fileno` attribute (file-like objects do; the sentinel
integers and `None` do not). -/
def hasFileno : StreamVal → Bool
  | StreamVal.fileObj _ => true
  | _ => false

/-! ## Keyword arguments

Extra keyword arguments (`**kwargs`) are a finite map from keyword names to
values.  Only comparison of a value with `INTERACT` is ever observed by the
library, so values are modelled as `StreamVal`.  Keyword names are an enum:
the three stream keywords plus representatives of pass-through spawn options. -/

/-- Keyword names that can occur in a call's keyword-argument dictionary. -/
inductive KwKey where
  | kStdin
  | kStdout
  | kStderr
  | kEnv
  | kCwd
deriving DecidableEq, Repr

/-- Python `dict.get`: the first binding of the key, else `None`. -/
def pyGet (kw : List (KwKey × StreamVal)) (k : KwKey) : Option StreamVal :=
  match kw with
  | [] => none
  | (k2, v) :: rest => if k2 = k then some v else pyGet rest k

/-! ## Process construction -/

/-- The construction-time state of a `Process` object (src/spawn.py:93-116):
the template, positional args, the `cmdline` result, the three declared stream
modes, the extra keyword arguments, and the `_init_pipe` flag. -/
structure Process where
  _cmd : List Char
  _args : List (List Char)
  _cmdline : Option (List (List Char))
  _stdin : StreamVal
  _stdout : StreamVal
  _stderr : StreamVal
  _kwargs : List (KwKey × StreamVal)
  _init_pipe : Bool
deriving DecidableEq, Repr

/-- src/spawn.py:127-128: `Process._interactive_count` counts how many of the
keys stdout, stderr, stdin in `self._kwargs` map to `INTERACT`.  Note that
`self._kwargs` holds only the extra keyword arguments: the stream keywords are
consumed by the named parameters of `__init__` and never reach it. -/
def Process.interactive_count (p : Process) : Nat :=
  ((([KwKey.kStdout, KwKey.kStderr, KwKey.kStdin]).filter
    (fun k => pyGet p._kwargs k = some INTERACT))).length

/-- src/spawn.py:94-116: `Process.__init__`.  Computes `cmdline` (which may
raise), checks the stream-mode assertions in source order, then runs
`Runnable.__init__`, whose assertion `_interactive_count() <= 1` guards against
multiple interactive streams. -/
def Process.init (cmd : List Char) (args : List (List Char))
    (stdin stdout stderr : StreamVal) (kwargs : List (KwKey × StreamVal)) :
    Except PyErr Process := do
  let cl ← cmdline cmd args
  if ¬ (stdin = _UNDEFINED ∨ stdin = STDIN ∨ stdin = INTERACT ∨ hasFileno stdin) then
    Except.error PyErr.assertionErr
  else if stdout = STDIN ∨ stdout = StreamVal.pyNone then
    Except.error PyErr.assertionErr
  else if stderr = STDIN ∨ stderr = StreamVal.pyNone then
    Except.error PyErr.assertionErr
  else if stdout = PIPE ∧ stderr = PIPE then
    Except.error PyErr.assertionErr
  else
    let p : Process :=
      { _cmd := cmd, _args := args, _cmdline := cl,
        _stdin := stdin, _stdout := stdout, _stderr := stderr,
        _kwargs := kwargs, _init_pipe := false }
    if p.interactive_count ≤ 1 then Except.ok p else Except.error PyErr.assertionErr

/-- Python keyword binding for a call `Process(cmd, *args, **allKw)`: the
stdin/stdout/stderr keywords bind to the named parameters of `__init__`
(defaulting to `_UNDEFINED`), and every other keyword lands in `**kwargs`.
Consequently `self._kwargs` can never contain the three stream keys. -/
def Process.call (cmd : List Char) (args : List (List Char))
    (allKw : List (KwKey × StreamVal)) : Except PyErr Process :=
  Process.init cmd args
    ((pyGet allKw KwKey.kStdin).getD _UNDEFINED)
    ((pyGet allKw KwKey.kStdout).getD _UNDEFINED)
    ((pyGet allKw KwKey.kStderr).getD _UNDEFINED)
    (allKw.filter
      (fun kv => ¬ (kv.1 = KwKey.kStdin ∨ kv.1 = KwKey.kStdout ∨ kv.1 = KwKey.kStderr)))

/-- src/spawn.py:130-134: `Process._prepare_pipe` sets `_init_pipe` and, when
neither stdout nor stderr is already `PIPE`, asserts stdout is `_UNDEFINED` and
forces it to `PIPE`. -/
def Process.prepare_pipe (q : Process) : Except PyErr Process :=
  let q2 : Process := { q with _init_pipe := true }
  if q2._stdout ≠ PIPE ∧ q2._stderr ≠ PIPE then
    if q2._stdout = _UNDEFINED then Except.ok { q2 with _stdout := PIPE }
    else Except.error PyErr.assertionErr
  else Except.ok q2

/-! ## Starting a process -/

/-- Concrete values that can occupy a stdio slot of the OS spawn call:
the subprocess module's `PIPE` / `DEVNULL` request constants, the caller's own
standard streams, or a user-supplied file-like object. -/
inductive Handle where
  | subprocPIPE
  | subprocDEVNULL
  | sysStdinH
  | sysStdoutH
  | sysStderrH
  | userH (fd : Nat)
deriving DecidableEq, Repr

/-- src/spawn.py:164-173: resolution of the declared stdin mode and the eager
`input` argument to the concrete stdin slot of the spawn call, including the
assertions taken on each branch. -/
def resolveStdin (stdin : StreamVal) (input : Option (List Char)) :
    Except PyErr Handle :=
  if input ≠ none ∨ stdin = INTERACT then
    if stdin = _UNDEFINED ∨ stdin = INTERACT then Except.ok Handle.subprocPIPE
    else Except.error PyErr.assertionErr
  else if stdin = IGNORE then Except.ok Handle.subprocDEVNULL
  else if stdin = STDIN ∨ stdin = _UNDEFINED then Except.ok Handle.sysStdinH
  else
    match stdin with
    | StreamVal.fileObj fd => Except.ok (Handle.userH fd)
    | _ => Except.error PyErr.assertionErr

/-- src/spawn.py:142-159: `Process._out_handle` resolves a declared stdout or
stderr mode to the concrete slot of the spawn call. -/
def _out_handle (value : StreamVal) (dflt : Handle) (is_pipe : Bool) :
    Except PyErr Handle :=
  if value = IGNORE then Except.ok Handle.subprocDEVNULL
  else if value = CAPTURE ∨ value = INTERACT then Except.ok Handle.subprocPIPE
  else if value = PIPE then
    if is_pipe then Except.ok Handle.subprocPIPE else Except.error PyErr.assertionErr
  else if value = _UNDEFINED then Except.ok dflt
  else if value = STDOUT then Except.ok Handle.sysStdoutH
  else if value = STDERR then Except.ok Handle.sysStderrH
  else
    match value with
    | StreamVal.fileObj fd => Except.ok (Handle.userH fd)
    | _ => Except.error PyErr.assertionErr

/-- An input/output operation performed by a background thread on its stream. -/
inductive StreamOp where
  | writeOp (data : List Char)
  | closeOp
  | readAll
deriving DecidableEq, Repr

/-- src/spawn.py:193-194: the eager-input background thread's body.  The thread
target is the bare bound method `self._popen.stdin.write` applied to `input`:
the thread performs a single write of the data and nothing else. -/
def inputThreadOps (input : List Char) : List StreamOp :=
  [StreamOp.writeOp input]

/-- src/spawn.py:195-198: the stdout capture thread reads the stream to
end-of-file into `self._captured_stdout`. -/
def captureStdoutThreadOps : List StreamOp := [StreamOp.readAll]

/-- src/spawn.py:199-202: the stderr capture thread reads the stream to
end-of-file into `self._captured_stderr`. -/
def captureStderrThreadOps : List StreamOp := [StreamOp.readAll]

/-- One of the three stdio pipe objects of the spawned OS process handle. -/
inductive PopenStream where
  | popenStdin
  | popenStdout
  | popenStderr
deriving DecidableEq, Repr

/-- The state `Process.start` leaves behind: the three concrete stdio slots
passed to the OS spawn, the exposed interactive input/output handles and pipe
end, and the bodies of the launched background threads in launch order. -/
structure StartedProcess where
  procDef : Process
  pstdin : Handle
  pstdout : Handle
  pstderr : Handle
  inputH : Option PopenStream
  outputH : Option PopenStream
  pipeH : Option PopenStream
  threads : List (List StreamOp)
deriving DecidableEq, Repr

/-- src/spawn.py:161-202: `Process.start` on a not-yet-started process.
Resolves the three stdio slots, spawns the OS process on the resolved
`_cmdline` (the OS spawn rejects a `None` argv with a TypeError), exposes the
interactive and pipe handles per the source's `elif` chains, and launches the
background threads: the eager-input writer when `input` is given, then the
stdout and stderr capture drainers. -/
def Process.start (p : Process) (input : Option (List Char)) :
    Except PyErr StartedProcess := do
  let pstdin ← resolveStdin p._stdin input
  let pstdout ← _out_handle p._stdout Handle.sysStdoutH p._init_pipe
  let pstderr ← _out_handle p._stderr Handle.sysStderrH p._init_pipe
  match p._cmdline with
  | none => Except.error PyErr.typeErr
  | some _ =>
    let inputH := if p._stdin = INTERACT then some PopenStream.popenStdin else none
    let outputH :=
      if p._stdin = INTERACT then none
      else if p._stdout = INTERACT then some PopenStream.popenStdout
      else if p._stderr = INTERACT then some PopenStream.popenStderr
      else none
    let pipeH :=
      if p._init_pipe then
        if p._stdout = PIPE then some PopenStream.popenStdout
        else if p._stderr = PIPE then some PopenStream.popenStderr
        else none
      else none
    let threads :=
      (match input with
       | some d => [inputThreadOps d]
       | none => []) ++
      (if p._stdout = CAPTURE then [captureStdoutThreadOps] else []) ++
      (if p._stderr = CAPTURE then [captureStderrThreadOps] else [])
    Except.ok
      { procDef := p, pstdin := pstdin, pstdout := pstdout, pstderr := pstderr,
        inputH := inputH, outputH := outputH, pipeH := pipeH, threads := threads }

/-! ## Completion records and exit-status checking -/

/-- The completion record (src/spawn.py:14-15, populated at src/spawn.py:211-214):
resolved argv, exit code, and the captured output buffers. -/
structure CompletedProcess where
  cargs : Option (List (List Char))
  returncode : Int
  stdout : Option (List Char)
  stderr : Option (List Char)
deriving DecidableEq, Repr

/-- The exception classes relevant to exit-status checking: the standard
library's CalledProcessError and the two classes the module derives from it
(src/spawn.py:17-21). -/
inductive ErrClass where
  | subprocessCalledProcessError
  | spawnCalledProcessError
  | spawnCalledProcessSignal
deriving DecidableEq, Repr

/-- Method resolution order of each class: the class itself followed by its
bases, per the class declarations (src/spawn.py:17-21): `CalledProcessError`
derives from the standard library's class, and `CalledProcessSignal` derives
from `CalledProcessError`. -/
def ErrClass.mro : ErrClass → List ErrClass
  | ErrClass.subprocessCalledProcessError => [ErrClass.subprocessCalledProcessError]
  | ErrClass.spawnCalledProcessError =>
    [ErrClass.spawnCalledProcessError, ErrClass.subprocessCalledProcessError]
  | ErrClass.spawnCalledProcessSignal =>
    [ErrClass.spawnCalledProcessSignal, ErrClass.spawnCalledProcessError,
     ErrClass.subprocessCalledProcessError]

/-- Subclass relation: a class is a subclass of every class in its method
resolution order. -/
def ErrClass.isSubclassOf (c target : ErrClass) : Bool := (c.mro).contains target

/-- Python `isinstance`: an object whose class is `c` is an instance of
`target` exactly when `c` is a subclass of `target`. -/
def isinstance (c target : ErrClass) : Bool := ErrClass.isSubclassOf c target

/-- An exception raised by exit-status checking: its dynamic class together
with the data the standard-library constructor stores. -/
structure RaisedErr where
  cls : ErrClass
  returncode : Int
  cargs : Option (List (List Char))
  output : Option (List Char)
  stderrOut : Option (List Char)
deriving DecidableEq, Repr

/-- Exit-status check invoked on a completion record (`res.check_returncode()`,
src/spawn.py:60).  The module's `CompletedProcess` (src/spawn.py:14-15)
subclasses the standard library's record without overriding anything, so the
inherited method runs: when the exit code is nonzero it raises the standard
library's CalledProcessError carrying returncode, args and output.  (When the
process died from a signal, the stored returncode is the negated signal
number.) -/
def CompletedProcess.check_returncode (cp : CompletedProcess) : Option RaisedErr :=
  if cp.returncode ≠ 0 then
    some { cls := ErrClass.subprocessCalledProcessError, returncode := cp.returncode,
           cargs := cp.cargs, output := cp.stdout, stderrOut := cp.stderr }
  else none

/-! ## Waiting, polling, running -/

/-- The observable outcome of the OS-level wait on a started process: whether
the process exits within a given timeout bound, its exit code once reaped, and
the buffers the capture threads have accumulated when joined. -/
structure WaitOutcome where
  timely : Option Int → Bool
  returncode : Int
  captured_stdout : Option (List Char)
  captured_stderr : Option (List Char)

/-- src/spawn.py:207-214: `Process.wait` body.  Blocks on the OS process exit
(raising the timeout error if the bound elapses first), then joins every
tracked background thread so the captured buffers are fully populated, then
builds the completion record from the resolved argv, the exit code and the
captured buffers. -/
def Process.waitModel (p : Process) (w : WaitOutcome) (timeout : Option Int) :
    Except PyErr CompletedProcess :=
  if w.timely timeout then
    Except.ok { cargs := p._cmdline, returncode := w.returncode,
                stdout := w.captured_stdout, stderr := w.captured_stderr }
  else Except.error PyErr.timeoutExpired

/-- src/spawn.py:49-51: `Runnable.run`, defined once on the base class and
inherited unchanged by `Process` and `Pipe`.  `startFn` and `waitFn` stand for
the object's (dynamically dispatched) start and wait methods.  The body calls
`self.start()` — with no argument, so start's `input` parameter takes its
default `None` and the `input` given to `run` is never forwarded — and then
returns `self.wait(timeout)`. -/
def Runnable.runM {σ ρ : Type} (startFn : Option (List Char) → Except PyErr σ)
    (waitFn : σ → Option Int → Except PyErr ρ)
    (_input : Option (List Char)) (timeout : Option Int) : Except PyErr ρ := do
  let s ← startFn none
  waitFn s timeout

/-! ## Python call semantics of `wait` -/

/-- The two concrete classes implementing the `Runnable` contract. -/
inductive RunnableClass where
  | processC
  | pipeC
deriving DecidableEq, Repr

/-- The declared default value of the `timeout` parameter of each class's
`wait` method: `Pipe.wait` declares `timeout=None` (src/spawn.py:276), while
`Process.wait` declares `timeout` with no default (src/spawn.py:207). -/
def waitTimeoutDefault : RunnableClass → Option (Option Int)
  | RunnableClass.processC => none
  | RunnableClass.pipeC => some none

/-- Calling `obj.wait()` with the timeout argument omitted: Python binds the
declared default if the method has one, and raises a TypeError for a missing
required positional argument otherwise.  On success the bound timeout value is
returned. -/
def callWaitOmitted (c : RunnableClass) : Except PyErr (Option Int) :=
  match waitTimeoutDefault c with
  | some d => Except.ok d
  | none => Except.error PyErr.typeErr

/-- src/spawn.py:59: the final step of `Runnable.iterate` is `res = self.wait()`
— a call with the timeout argument omitted, resolved against the dynamic class
of the receiver. -/
def iterateWaitCall (c : RunnableClass) : Except PyErr (Option Int) :=
  callWaitOmitted c

/-! ## Signal delivery -/

/-- A Python value passed as an argument in a call to the OS process handle:
the `Process` object itself, or a signal number. -/
inductive PyVal where
  | procSelf
  | sigVal (n : Int)
deriving DecidableEq, Repr

/-- src/spawn.py:118-119: the argument list `Process.send_signal` passes to the
OS process handle's `send_signal` — the source writes
`self._popen.send_signal(self, signal)`, so the `Process` object itself is
passed in front of the signal number. -/
def Process.send_signal_args (signal : Int) : List PyVal :=
  [PyVal.procSelf, PyVal.sigVal signal]

/-- src/spawn.py:121-122: `Process.terminate` calls the handle's `terminate`
with no arguments. -/
def Process.terminate_args : List PyVal := []

/-- src/spawn.py:124-125: `Process.kill` calls the handle's `kill` with no
arguments. -/
def Process.kill_args : List PyVal := []

/-- The OS process handle's `send_signal` method accepts exactly one caller
argument (its signature is `send_signal(self, sig)`); a call passing any other
number of arguments raises a TypeError. -/
def popenSendSignalAccepts (args : List PyVal) : Bool := args.length = 1

/-! ## Pipelines -/

/-- The ownership tree built by pipeline construction: a `Pipe` object owns a
preceding stage (itself a `Process` or a nested `Pipe`) and a terminal
`Process`.  This mirrors the `_preceding` / `_process` attributes
(src/spawn.py:244-251). -/
inductive RTree where
  | proc (p : Process)
  | pipe (preceding : RTree) (terminal : Process)
deriving DecidableEq, Repr

/-- Whether the object is a `Pipe` (as opposed to a plain `Process`). -/
def RTree.isPipeNode : RTree → Bool
  | RTree.proc _ => false
  | RTree.pipe _ _ => true

/-- The terminal `Process` of the object: itself for a `Process`, the owned
`_process` for a `Pipe`. -/
def RTree.terminalProc : RTree → Process
  | RTree.proc p => p
  | RTree.pipe _ t => t

/-- Flattening of the tree into its stages in textual order; the terminal
command of a pipe comes last. -/
def RTree.stages : RTree → List Process
  | RTree.proc p => [p]
  | RTree.pipe a t => a.stages ++ [t]

/-- src/spawn.py:127-128 and src/spawn.py:258-259: `_interactive_count` of a
`Process` counts its own kwargs; a `Pipe` sums the counts of its preceding
stage and its terminal process. -/
def RTree.interactive_count : RTree → Nat
  | RTree.proc p => p.interactive_count
  | RTree.pipe a t => a.interactive_count + t.interactive_count

/-- `_prepare_pipe` dispatched on the object: a `Process` prepares itself
(src/spawn.py:130-134); a `Pipe` delegates to its terminal process
(src/spawn.py:261-262). -/
def RTree.prepare_pipe : RTree → Except PyErr RTree
  | RTree.proc p => (p.prepare_pipe).map RTree.proc
  | RTree.pipe a t => (t.prepare_pipe).map (RTree.pipe a)

/-- Split at the last occurrence of the separator: Python
`cmd.rsplit(separator, 1)` when the separator occurs, `none` otherwise. -/
def rsplitPipe : List Char → Option (List Char × List Char)
  | [] => none
  | c :: rest =>
    match rsplitPipe rest with
    | some (l, r) => some (c :: l, r)
    | none => if c = '|' then some ([], rest) else none

/-- src/spawn.py:220-251: `Pipe.__init__` on a template (the `_preceding=None`
path).  Asserts the template contains a separator, splits it at the last
separator, computes the preceding side's spec count and takes that many
positional arguments for it, builds the preceding side as a nested `Pipe` if it
still contains a separator and as a plain `Process` otherwise (stdout passed as
`_UNDEFINED`, stdin and stderr and the extra kwargs forwarded), calls
`_prepare_pipe()` on it, then builds the terminal `Process` from the remainder
(stdin `_UNDEFINED`, the caller's stdout and stderr logic and kwargs), and
finally runs `Runnable.__init__`'s interactive-count assertion over the whole
object.  The `fuel` argument bounds the recursion depth of the embedding; any
fuel larger than the template length is enough, and theorems hypothesise a
successful result, which forces the fuel to have sufficed. -/
def Pipe.initFuel : Nat → List Char → List (List Char) →
    StreamVal → StreamVal → StreamVal → List (KwKey × StreamVal) →
    Except PyErr RTree
  | 0, _, _, _, _, _, _ => Except.error PyErr.fuelErr
  | Nat.succ fuel, cmd, args, stdin, stdout, stderr, kwargs =>
    match rsplitPipe cmd with
    | none => Except.error PyErr.assertionErr
    | some (preceding_cmd, cmd2) => do
      let preceding_args := args.take (specCountN preceding_cmd)
      let args2 := args.drop (specCountN preceding_cmd)
      let pre0 ←
        if '|' ∈ preceding_cmd then
          Pipe.initFuel fuel preceding_cmd preceding_args stdin _UNDEFINED stderr kwargs
        else
          (Process.init preceding_cmd preceding_args stdin _UNDEFINED stderr kwargs).map
            RTree.proc
      let pre ← pre0.prepare_pipe
      let term ← Process.init cmd2 args2 _UNDEFINED stdout stderr kwargs
      let t := RTree.pipe pre term
      if t.interactive_count ≤ 1 then Except.ok t else Except.error PyErr.assertionErr

/-- `Pipe` construction from a template, with enough fuel for the embedding's
recursion to follow every separator in the template. -/
def Pipe.init (cmd : List Char) (args : List (List Char))
    (stdin stdout stderr : StreamVal) (kwargs : List (KwKey × StreamVal)) :
    Except PyErr RTree :=
  Pipe.initFuel (cmd.length + 1) cmd args stdin stdout stderr kwargs

/-- src/spawn.py:273-274: `Pipe.poll` returns `self._process.poll()`, the
non-blocking exit status of the terminal process only; `pollOf` assigns each
process its current OS-level poll result. -/
def Pipe.pollModel (_preceding : RTree) (terminal : Process)
    (pollOf : Process → Option Int) : Option Int :=
  pollOf terminal

/-- src/spawn.py:276-277: `Pipe.wait` returns `self._process.wait(timeout)`,
the terminal process's wait; `outcomeOf` assigns each process the observable
outcome of its OS-level wait. -/
def Pipe.waitModel (_preceding : RTree) (terminal : Process)
    (outcomeOf : Process → WaitOutcome) (timeout : Option Int) :
    Except PyErr CompletedProcess :=
  Process.waitModel terminal (outcomeOf terminal) timeout

/-- Python `str.split` on the separator character: every segment, in order. -/
def splitOnPipe : List Char → List (List Char)
  | [] => [[]]
  | c :: rest =>
    if c = '|' then [] :: splitOnPipe rest
    else
      match splitOnPipe rest with
      | [] => [[c]]
      | h :: t => (c :: h) :: t

/-- The positional-argument allocation pipeline construction performs across
stages: each stage before the last consumes its own spec count from the front
of the remaining sequence, and the final stage receives everything left. -/
def allocArgs : List (List Char) → List (List Char) → List (List (List Char))
  | [], _ => []
  | [_], args => [args]
  | t :: ts, args => args.take (specCountN t) :: allocArgs ts (args.drop (specCountN t))

/-- The preceding stage of a `Pipe`; a plain `Process` is returned unchanged
(the projection is only meaningful on pipe nodes). -/
def RTree.precedingOf : RTree → RTree
  | RTree.proc p => RTree.proc p
  | RTree.pipe a _ => a

/-- A placeholder process value used when destructuring a construction result
that is already known to have succeeded. -/
def dummyProcess : Process :=
  { _cmd := [], _args := [], _cmdline := none, _stdin := _UNDEFINED,
    _stdout := _UNDEFINED, _stderr := _UNDEFINED, _kwargs := [], _init_pipe := false }

/-- The pipeline built from the template a-bar-b-bar-c with captured stdout:
a concrete successful three-stage construction. -/
def pipeABC : RTree :=
  match Pipe.init ['a', ' ', '|', ' ', 'b', ' ', '|', ' ', 'c'] []
      _UNDEFINED CAPTURE _UNDEFINED [] with
  | Except.ok t => t
  | Except.error _ => RTree.proc dummyProcess

/-- A concrete successful three-stage construction carrying a pass-through
spawn option and a captured stderr on every stage. -/
def pipeEnvABC : RTree :=
  match Pipe.init ['a', ' ', '|', ' ', 'b', ' ', '|', ' ', 'c'] []
      STDIN IGNORE CAPTURE [(KwKey.kEnv, StreamVal.fileObj 7)] with
  | Except.ok t => t
  | Except.error _ => RTree.proc dummyProcess

/-! ## Lemmas about the separator split -/

theorem rsplitPipe_none (s : List Char) (h : rsplitPipe s = none) : '|' ∉ s := by
  induction s with
  | nil => simp
  | cons c rest ih =>
    simp only [rsplitPipe] at h
    cases hr : rsplitPipe rest with
    | some lr => rw [hr] at h; simp at h
    | none =>
      rw [hr] at h
      by_cases hc : c = '|'
      · simp [hc] at h
      · simp only [List.mem_cons, not_or]
        exact ⟨fun he => hc he.symm, ih hr⟩

theorem rsplitPipe_eq_none (s : List Char) (h : '|' ∉ s) : rsplitPipe s = none := by
  induction s with
  | nil => rfl
  | cons c rest ih =>
    simp only [List.mem_cons, not_or] at h
    simp only [rsplitPipe, ih h.2]
    rw [if_neg (fun he => h.1 he.symm)]

theorem rsplitPipe_some (s l r : List Char) (h : rsplitPipe s = some (l, r)) :
    s = l ++ '|' :: r ∧ '|' ∉ r := by
  induction s generalizing l r with
  | nil => simp [rsplitPipe] at h
  | cons c rest ih =>
    simp only [rsplitPipe] at h
    cases hr : rsplitPipe rest with
    | some lr =>
      obtain ⟨l2, r2⟩ := lr
      rw [hr] at h
      simp only [Option.some.injEq, Prod.mk.injEq] at h
      obtain ⟨h1, h2⟩ := h
      obtain ⟨hd, hm⟩ := ih l2 r2 hr
      subst h2
      rw [← h1, hd]
      exact ⟨rfl, hm⟩
    | none =>
      rw [hr] at h
      by_cases hc : c = '|'
      · rw [if_pos hc] at h
        have h2 : ([] : List Char) = l ∧ rest = r := by
          simpa only [Option.some.injEq, Prod.mk.injEq] using h
        obtain ⟨h3, h4⟩ := h2
        subst h3
        subst h4
        exact ⟨by simp [hc], rsplitPipe_none rest hr⟩
      · rw [if_neg hc] at h
        simp at h

theorem rsplitPipe_last (l r : List Char) (h : '|' ∉ r) :
    rsplitPipe (l ++ '|' :: r) = some (l, r) := by
  induction l with
  | nil => simp [rsplitPipe, rsplitPipe_eq_none r h]
  | cons c l2 ih => simp [rsplitPipe, ih]

theorem splitOnPipe_ne_nil (s : List Char) : splitOnPipe s ≠ [] := by
  cases s with
  | nil => simp [splitOnPipe]
  | cons c rest =>
    simp only [splitOnPipe]
    by_cases hc : c = '|'
    · simp [hc]
    · simp only [hc, if_neg]
      cases hs : splitOnPipe rest <;> simp

theorem splitOnPipe_no_sep (s : List Char) (h : '|' ∉ s) : splitOnPipe s = [s] := by
  induction s with
  | nil => rfl
  | cons c rest ih =>
    simp only [List.mem_cons, not_or] at h
    have hc : ¬ c = '|' := fun he => h.1 he.symm
    simp [splitOnPipe, hc, ih h.2]

theorem splitOnPipe_append (l r : List Char) (h : '|' ∉ r) :
    splitOnPipe (l ++ '|' :: r) = splitOnPipe l ++ [r] := by
  induction l with
  | nil => simp [splitOnPipe, splitOnPipe_no_sep r h]
  | cons c l2 ih =>
    by_cases hc : c = '|'
    · simp [splitOnPipe, hc, ih]
    · cases hS : splitOnPipe l2 with
      | nil => exact absurd hS (splitOnPipe_ne_nil l2)
      | cons hh tt =>
        have ih2 : splitOnPipe (l2.append ('|' :: r)) = splitOnPipe l2 ++ [r] := ih
        simp only [List.cons_append, splitOnPipe, hc, if_neg, hS]
        rw [ih2, hS]
        simp

/-! ## Lemmas about placeholder counting -/

theorem countDoubles_cons_ne (c : Char) (t : List Char) (hc : c ≠ '%') :
    countDoubles (c :: t) = countDoubles t := by
  cases t with
  | nil => rfl
  | cons b rest =>
    have hna : ¬(c = '%' ∧ b = '%') := fun h => hc h.1
    simp [countDoubles, hna]

theorem two_mul_countDoubles_le (t : List Char) : 2 * countDoubles t ≤ t.count '%' := by
  match t with
  | [] => simp [countDoubles]
  | [a] => simp [countDoubles]
  | a :: b :: rest =>
    by_cases hab : a = '%' ∧ b = '%'
    · have h1 := two_mul_countDoubles_le rest
      have hd : countDoubles (a :: b :: rest) = countDoubles rest + 1 := by
        simp [countDoubles, hab]
      obtain ⟨ha, hb⟩ := hab
      subst ha
      subst hb
      rw [hd, List.count_cons_self, List.count_cons_self]
      omega
    · have h2 := two_mul_countDoubles_le (b :: rest)
      have hd : countDoubles (a :: b :: rest) = countDoubles (b :: rest) := by
        simp [countDoubles, hab]
      have hc2 : (b :: rest).count '%' ≤ (a :: b :: rest).count '%' := by
        simp only [List.count_cons]
        split <;> omega
      rw [hd]
      omega

theorem countDoubles_append_sep (l r : List Char) :
    countDoubles (l ++ '|' :: r) = countDoubles l + countDoubles r := by
  match l with
  | [] =>
    simp only [List.nil_append, countDoubles]
    rw [countDoubles_cons_ne '|' r (by decide)]
    omega
  | [a] =>
    have hna : ¬(a = '%' ∧ '|' = '%') := fun h => by simpa using h.2
    simp only [List.cons_append, List.nil_append, countDoubles, if_neg hna]
    rw [countDoubles_cons_ne '|' r (by decide)]
    omega
  | a :: b :: l2 =>
    by_cases hab : a = '%' ∧ b = '%'
    · have h1 : countDoubles (l2.append ('|' :: r)) = countDoubles l2 + countDoubles r :=
        countDoubles_append_sep l2 r
      simp only [List.cons_append, countDoubles, if_pos hab]
      omega
    · have h2 : countDoubles (b :: l2.append ('|' :: r))
          = countDoubles (b :: l2) + countDoubles r := by
        have := countDoubles_append_sep (b :: l2) r
        simpa using this
      simp only [List.cons_append, countDoubles, if_neg hab]
      omega

theorem count_append_sep (l r : List Char) :
    (l ++ '|' :: r).count '%' = l.count '%' + r.count '%' := by
  simp [List.count_append, List.count_cons]

theorem specCountN_append_sep (l r : List Char) :
    specCountN (l ++ '|' :: r) = specCountN l + specCountN r := by
  have hl := two_mul_countDoubles_le l
  have hr := two_mul_countDoubles_le r
  simp only [specCountN, count_append_sep, countDoubles_append_sep]
  omega

theorem sumSpec_splitOnPipe (s : List Char) :
    ((splitOnPipe s).map specCountN).sum = specCountN s := by
  by_cases h : '|' ∈ s
  · cases hr : rsplitPipe s with
    | none => exact absurd h (rsplitPipe_none s hr)
    | some lr =>
      obtain ⟨l, r⟩ := lr
      obtain ⟨hd, hm⟩ := rsplitPipe_some s l r hr
      have hlen : l.length < s.length := by
        rw [hd]
        simp [List.length_append]
      have ihl := sumSpec_splitOnPipe l
      rw [hd, splitOnPipe_append l r hm, specCountN_append_sep]
      simp [ihl]
  · rw [splitOnPipe_no_sep s h]
    simp
termination_by s.length

theorem allocArgs_concat (S : List (List Char)) (r : List Char)
    (args : List (List Char)) (hS : S ≠ []) :
    allocArgs (S ++ [r]) args =
      allocArgs S (args.take ((S.map specCountN).sum)) ++
        [args.drop ((S.map specCountN).sum)] := by
  match S with
  | [] => exact absurd rfl hS
  | [t] => simp [allocArgs]
  | t :: u :: S2 =>
    have ih : allocArgs (u :: S2.append [r]) (args.drop (specCountN t)) =
        allocArgs (u :: S2)
          ((args.drop (specCountN t)).take (((u :: S2).map specCountN).sum)) ++
          [(args.drop (specCountN t)).drop (((u :: S2).map specCountN).sum)] := by
      have := allocArgs_concat (u :: S2) r (args.drop (specCountN t)) (by simp)
      simpa using this
    simp only [List.cons_append, allocArgs]
    rw [ih]
    have hsum : ((t :: u :: S2).map specCountN).sum
        = specCountN t + ((u :: S2).map specCountN).sum := by simp
    rw [hsum]
    have h1 : (args.take (specCountN t + ((u :: S2).map specCountN).sum)).take (specCountN t)
        = args.take (specCountN t) := by
      rw [List.take_take]
      have : min (specCountN t) (specCountN t + ((u :: S2).map specCountN).sum)
          = specCountN t := by omega
      rw [this]
    have h2 : (args.take (specCountN t + ((u :: S2).map specCountN).sum)).drop (specCountN t)
        = (args.drop (specCountN t)).take (((u :: S2).map specCountN).sum) := by
      rw [List.drop_take]
      congr 1
      omega
    have h3 : args.drop (specCountN t + ((u :: S2).map specCountN).sum)
        = (args.drop (specCountN t)).drop (((u :: S2).map specCountN).sum) := by
      rw [List.drop_drop]
    rw [h1, h2, h3]

/-! ## Lemmas about construction -/

theorem Process.init_fields (cmd : List Char) (args : List (List Char))
    (st so se : StreamVal) (kw : List (KwKey × StreamVal)) (p : Process)
    (h : Process.init cmd args st so se kw = Except.ok p) :
    p._cmd = cmd ∧ p._args = args ∧ p._stdin = st ∧ p._stdout = so ∧
    p._stderr = se ∧ p._kwargs = kw ∧ p._init_pipe = false := by
  cases hc : cmdline cmd args with
  | error e =>
    simp only [Process.init, bind, Except.bind, hc] at h
    exact Except.noConfusion h
  | ok cl =>
    simp only [Process.init, bind, Except.bind, hc] at h
    split at h
    · exact absurd h (by simp)
    · split at h
      · exact absurd h (by simp)
      · split at h
        · exact absurd h (by simp)
        · split at h
          · exact absurd h (by simp)
          · split at h
            · injection h with hp
              subst hp
              exact ⟨rfl, rfl, rfl, rfl, rfl, rfl, rfl⟩
            · exact absurd h (by simp)

theorem Process.prepare_pipe_of_und (q : Process) (hq : q._stdout = _UNDEFINED) :
    Process.prepare_pipe q =
      Except.ok { q with _init_pipe := true,
                         _stdout := if q._stderr = PIPE then _UNDEFINED else PIPE } := by
  obtain ⟨c, a, cl, si, so, se, kw, ip⟩ := q
  have hso : so = _UNDEFINED := hq
  subst hso
  by_cases hse : se = PIPE
  · subst hse
    simp only [Process.prepare_pipe]
    rw [if_neg (fun hcon => hcon.2 rfl)]
    simp
  · simp only [Process.prepare_pipe]
    rw [if_pos (And.intro (by decide) hse)]
    simp [hse]

theorem RTree.prepare_pipe_ok (t t' : RTree) (h : RTree.prepare_pipe t = Except.ok t') :
    t'.isPipeNode = t.isPipeNode ∧
    ∃ qs q q', t.stages = qs ++ [q] ∧ t'.stages = qs ++ [q'] ∧
      Process.prepare_pipe q = Except.ok q' := by
  cases t with
  | proc p =>
    cases hp : Process.prepare_pipe p with
    | error e =>
      simp only [RTree.prepare_pipe, hp, Except.map] at h
      exact Except.noConfusion h
    | ok q' =>
      simp only [RTree.prepare_pipe, hp, Except.map, Except.ok.injEq] at h
      subst h
      exact ⟨rfl, [], p, q', by simp [RTree.stages], by simp [RTree.stages], hp⟩
  | pipe a term =>
    cases hp : Process.prepare_pipe term with
    | error e =>
      simp only [RTree.prepare_pipe, hp, Except.map] at h
      exact Except.noConfusion h
    | ok q' =>
      simp only [RTree.prepare_pipe, hp, Except.map, Except.ok.injEq] at h
      subst h
      exact ⟨rfl, a.stages, term, q', rfl, rfl, hp⟩

theorem exceptBind_ok {α β : Type} {x : Except PyErr α} {f : α → Except PyErr β} {b : β}
    (h : (x >>= f) = Except.ok b) : ∃ a, x = Except.ok a ∧ f a = Except.ok b := by
  cases x with
  | error e => simp [Bind.bind, Except.bind] at h
  | ok a =>
    refine ⟨a, rfl, ?_⟩
    simpa [Bind.bind, Except.bind] using h

theorem exceptMap_ok {α β : Type} {x : Except PyErr α} {f : α → β} {b : β}
    (h : x.map f = Except.ok b) : ∃ a, x = Except.ok a ∧ f a = b := by
  cases x with
  | error e => simp [Except.map] at h
  | ok a =>
    refine ⟨a, rfl, ?_⟩
    simpa [Except.map] using h

theorem iteOk_ok {α : Type} {c : Prop} [Decidable c] {a : α} {e : PyErr} {b : α}
    (h : (if c then Except.ok a else Except.error e) = Except.ok b) : b = a := by
  by_cases hc : c
  · rw [if_pos hc] at h
    exact (Except.ok.inj h).symm
  · rw [if_neg hc] at h
    exact Except.noConfusion h

theorem master_assemble (cmd l r : List Char) (args : List (List Char))
    (stdin stdout stderr : StreamVal) (kwargs : List (KwKey × StreamVal))
    (pre : RTree) (term : Process)
    (hr : rsplitPipe cmd = some (l, r))
    (hPN : pre.isPipeNode = decide ('|' ∈ l))
    (hcmdsP : pre.stages.map Process._cmd = splitOnPipe l)
    (hargsP : pre.stages.map Process._args
      = allocArgs (splitOnPipe l) (args.take (specCountN l)))
    (hseP : pre.stages.map Process._stderr
      = List.replicate (splitOnPipe l).length stderr)
    (hkwP : pre.stages.map Process._kwargs
      = List.replicate (splitOnPipe l).length kwargs)
    (hsiP : pre.stages.map Process._stdin
      = stdin :: List.replicate ((splitOnPipe l).length - 1) _UNDEFINED)
    (hsoP : pre.stages.map Process._stdout
      = List.replicate (splitOnPipe l).length
          (if stderr = PIPE then _UNDEFINED else PIPE))
    (hterm : Process.init r (args.drop (specCountN l)) _UNDEFINED stdout stderr kwargs
      = Except.ok term) :
    rsplitPipe cmd = some (l, r) ∧
    (RTree.pipe pre term).isPipeNode = true ∧
    pre.isPipeNode = decide ('|' ∈ l) ∧
    term._cmd = r ∧ term._args = args.drop (specCountN l) ∧
    term._stdin = _UNDEFINED ∧ term._stdout = stdout ∧ term._stderr = stderr ∧
    term._kwargs = kwargs ∧ term._init_pipe = false ∧
    (RTree.pipe pre term).stages.map Process._cmd = splitOnPipe cmd ∧
    (RTree.pipe pre term).stages.map Process._args = allocArgs (splitOnPipe cmd) args ∧
    (RTree.pipe pre term).stages.map Process._stderr
      = List.replicate (splitOnPipe cmd).length stderr ∧
    (RTree.pipe pre term).stages.map Process._kwargs
      = List.replicate (splitOnPipe cmd).length kwargs ∧
    (RTree.pipe pre term).stages.map Process._stdin
      = stdin :: List.replicate ((splitOnPipe cmd).length - 1) _UNDEFINED ∧
    (RTree.pipe pre term).stages.map Process._stdout
      = List.replicate ((splitOnPipe cmd).length - 1)
          (if stderr = PIPE then _UNDEFINED else PIPE) ++ [stdout] := by
  obtain ⟨hdec, hnr⟩ := rsplitPipe_some cmd l r hr
  obtain ⟨htc, hta, htsi, htso, htse, htkw, htip⟩ :=
    Process.init_fields r (args.drop (specCountN l)) _UNDEFINED stdout stderr kwargs term hterm
  have hsplit : splitOnPipe cmd = splitOnPipe l ++ [r] := by
    rw [hdec]
    exact splitOnPipe_append l r hnr
  have hm1 : 1 ≤ (splitOnPipe l).length :=
    Nat.one_le_iff_ne_zero.mpr (fun h0 => splitOnPipe_ne_nil l (List.length_eq_zero.mp h0))
  have hlen : (splitOnPipe cmd).length = (splitOnPipe l).length + 1 := by
    rw [hsplit]
    simp
  have hstages : (RTree.pipe pre term).stages = pre.stages ++ [term] := rfl
  refine ⟨hr, rfl, hPN, htc, hta, htsi, htso, htse, htkw, htip, ?_, ?_, ?_, ?_, ?_, ?_⟩
  · rw [hstages, List.map_append, hcmdsP, hsplit]
    simp [htc]
  · rw [hstages, List.map_append, hargsP, hsplit]
    rw [allocArgs_concat (splitOnPipe l) r args (splitOnPipe_ne_nil l)]
    rw [sumSpec_splitOnPipe]
    simp [hta]
  · rw [hstages, List.map_append, hseP, hlen, List.replicate_succ']
    simp [htse]
  · rw [hstages, List.map_append, hkwP, hlen, List.replicate_succ']
    simp [htkw]
  · obtain ⟨k, hk⟩ : ∃ k, (splitOnPipe l).length = k + 1 :=
      ⟨(splitOnPipe l).length - 1, by omega⟩
    rw [hstages, List.map_append, hsiP, hlen, hk]
    simp only [Nat.add_sub_cancel, List.cons_append, List.map_cons, List.map_nil, htsi]
    rw [List.replicate_succ']
  · rw [hstages, List.map_append, hsoP, hlen]
    simp [htso]

theorem initFuel_spec : ∀ (fuel : Nat) (cmd : List Char) (args : List (List Char))
    (stdin stdout stderr : StreamVal) (kwargs : List (KwKey × StreamVal)) (t : RTree),
    Pipe.initFuel fuel cmd args stdin stdout stderr kwargs = Except.ok t →
    ∃ l r pre term,
      rsplitPipe cmd = some (l, r) ∧
      t = RTree.pipe pre term ∧
      pre.isPipeNode = decide ('|' ∈ l) ∧
      term._cmd = r ∧ term._args = args.drop (specCountN l) ∧
      term._stdin = _UNDEFINED ∧ term._stdout = stdout ∧ term._stderr = stderr ∧
      term._kwargs = kwargs ∧ term._init_pipe = false ∧
      t.stages.map Process._cmd = splitOnPipe cmd ∧
      t.stages.map Process._args = allocArgs (splitOnPipe cmd) args ∧
      t.stages.map Process._stderr = List.replicate (splitOnPipe cmd).length stderr ∧
      t.stages.map Process._kwargs = List.replicate (splitOnPipe cmd).length kwargs ∧
      t.stages.map Process._stdin =
        stdin :: List.replicate ((splitOnPipe cmd).length - 1) _UNDEFINED ∧
      t.stages.map Process._stdout =
        List.replicate ((splitOnPipe cmd).length - 1)
          (if stderr = PIPE then _UNDEFINED else PIPE) ++ [stdout] := by
  intro fuel
  induction fuel with
  | zero =>
    intro cmd args stdin stdout stderr kwargs t h
    exact Except.noConfusion h
  | succ fuel ih =>
    intro cmd args stdin stdout stderr kwargs t h
    cases hr : rsplitPipe cmd with
    | none =>
      simp only [Pipe.initFuel, hr] at h
      exact Except.noConfusion h
    | some lr =>
      obtain ⟨l, r⟩ := lr
      simp only [Pipe.initFuel, hr] at h
      by_cases hmem : '|' ∈ l
      · rw [if_pos hmem] at h
        obtain ⟨pre0, hpre0, h⟩ := exceptBind_ok h
        obtain ⟨pre, hprep, h⟩ := exceptBind_ok h
        obtain ⟨term, hterm, h⟩ := exceptBind_ok h
        have ht : t = RTree.pipe pre term := iteOk_ok h
        subst ht
        obtain ⟨hPN0, qs, q, q', hst0, hst1, hq⟩ := RTree.prepare_pipe_ok pre0 pre hprep
        obtain ⟨l2, r2, pre2, term2, hr2, ht2, hpn2, htc2, hta2, htsi2, htso2, htse2,
          htkw2, htip2, hcm2, hag2, hse2, hkw2, hsi2, hso2⟩ :=
          ih l (args.take (specCountN l)) stdin _UNDEFINED stderr kwargs pre0 hpre0
        obtain ⟨k, hk⟩ : ∃ k, (splitOnPipe l).length = k + 1 := by
          refine ⟨(splitOnPipe l).length - 1, ?_⟩
          have hne := splitOnPipe_ne_nil l
          have hne2 : (splitOnPipe l).length ≠ 0 :=
            fun h0 => hne (List.length_eq_zero.mp h0)
          omega
        rw [hk] at hse2 hso2
        simp only [Nat.add_sub_cancel] at hso2
        rw [hst0, List.map_append, List.map_cons, List.map_nil] at hso2
        obtain ⟨hqs_so, hq_so⟩ := List.append_inj' hso2 rfl
        have hq_so2 : q._stdout = _UNDEFINED := by simpa using hq_so
        rw [hst0, List.map_append, List.map_cons, List.map_nil] at hse2
        rw [List.replicate_succ'] at hse2
        obtain ⟨hqs_se, hq_se⟩ := List.append_inj' hse2 rfl
        have hq_se2 : q._stderr = stderr := by simpa using hq_se
        rw [Process.prepare_pipe_of_und q hq_so2] at hq
        have hq' : q' = { q with
            _init_pipe := true,
            _stdout := if q._stderr = PIPE then _UNDEFINED else PIPE } :=
          (Except.ok.inj hq).symm
        have hpre_cmd : pre.stages.map Process._cmd = pre0.stages.map Process._cmd := by
          rw [hst0, hst1]
          simp [hq', List.map_append]
        have hpre_args : pre.stages.map Process._args = pre0.stages.map Process._args := by
          rw [hst0, hst1]
          simp [hq', List.map_append]
        have hpre_si : pre.stages.map Process._stdin = pre0.stages.map Process._stdin := by
          rw [hst0, hst1]
          simp [hq', List.map_append]
        have hpre_kw : pre.stages.map Process._kwargs = pre0.stages.map Process._kwargs := by
          rw [hst0, hst1]
          simp [hq', List.map_append]
        have hPN : pre.isPipeNode = decide ('|' ∈ l) := by
          rw [hPN0, ht2]
          simp [RTree.isPipeNode, hmem]
        have hseP : pre.stages.map Process._stderr
            = List.replicate (splitOnPipe l).length stderr := by
          rw [hst1, List.map_append, List.map_cons, List.map_nil, hq']
          have hq_se3 : ({ q with
              _init_pipe := true,
              _stdout := if q._stderr = PIPE then _UNDEFINED else PIPE } : Process)._stderr
              = stderr := hq_se2
          rw [hq_se3, hqs_se, hk, List.replicate_succ']
        have hsoP : pre.stages.map Process._stdout
            = List.replicate (splitOnPipe l).length
                (if stderr = PIPE then _UNDEFINED else PIPE) := by
          rw [hst1, List.map_append, List.map_cons, List.map_nil, hq']
          have hq_so3 : ({ q with
              _init_pipe := true,
              _stdout := if q._stderr = PIPE then _UNDEFINED else PIPE } : Process)._stdout
              = if stderr = PIPE then _UNDEFINED else PIPE := by
            simp only
            rw [hq_se2]
          rw [hq_so3, hqs_so, hk, List.replicate_succ']
        obtain ⟨_A1, _A2, A3, A4, A5, A6, A7, A8, A9, A10, A11, A12, A13, A14, A15, A16⟩ :=
          master_assemble cmd l r args stdin stdout stderr kwargs pre term hr hPN
            (hpre_cmd.trans hcm2) (hpre_args.trans hag2) hseP
            (hpre_kw.trans hkw2) (hpre_si.trans hsi2) hsoP hterm
        exact ⟨l, r, pre, term, rfl, rfl, A3, A4, A5, A6, A7, A8, A9, A10,
          A11, A12, A13, A14, A15, A16⟩
      · rw [if_neg hmem] at h
        obtain ⟨pre0, hpre0, h⟩ := exceptBind_ok h
        obtain ⟨pre, hprep, h⟩ := exceptBind_ok h
        obtain ⟨term, hterm, h⟩ := exceptBind_ok h
        have ht : t = RTree.pipe pre term := iteOk_ok h
        subst ht
        obtain ⟨hPN0, qs, q, q', hst0, hst1, hq⟩ := RTree.prepare_pipe_ok pre0 pre hprep
        obtain ⟨p0, hp0, hpre0eq⟩ := exceptMap_ok hpre0
        subst hpre0eq
        obtain ⟨hc0, ha0, hsi0, hso0, hse0, hkw0, hip0⟩ :=
          Process.init_fields l (args.take (specCountN l)) stdin _UNDEFINED stderr kwargs p0 hp0
        have hst0b : ([] : List Process) ++ [p0] = qs ++ [q] := by
          simpa [RTree.stages] using hst0
        obtain ⟨hqs, hpq⟩ := List.append_inj' hst0b rfl
        have hq_eq : q = p0 := by
          have hpq2 := hpq
          simp only [List.cons.injEq, and_true] at hpq2
          exact hpq2.symm
        subst hq_eq
        rw [Process.prepare_pipe_of_und q hso0] at hq
        have hq' : q' = { q with
            _init_pipe := true,
            _stdout := if q._stderr = PIPE then _UNDEFINED else PIPE } :=
          (Except.ok.inj hq).symm
        have hstages1 : pre.stages = [q'] := by
          rw [hst1, ← hqs]
          rfl
        have hsPl : splitOnPipe l = [l] := splitOnPipe_no_sep l hmem
        have hPN : pre.isPipeNode = decide ('|' ∈ l) := by
          rw [hPN0]
          simp [RTree.isPipeNode, hmem]
        obtain ⟨_A1, _A2, A3, A4, A5, A6, A7, A8, A9, A10, A11, A12, A13, A14, A15, A16⟩ :=
          master_assemble cmd l r args stdin stdout stderr kwargs pre term hr hPN
            (by rw [hstages1, hsPl]; simp [hq', hc0])
            (by rw [hstages1, hsPl]; simp [hq', ha0, allocArgs])
            (by rw [hstages1, hsPl]; simp [hq', hse0])
            (by rw [hstages1, hsPl]; simp [hq', hkw0])
            (by rw [hstages1, hsPl]; simp [hq', hsi0])
            (by rw [hstages1, hsPl]; simp [hq', hse0])
            hterm
        exact ⟨l, r, pre, term, rfl, rfl, A3, A4, A5, A6, A7, A8, A9, A10,
          A11, A12, A13, A14, A15, A16⟩

/-- Specification of successful `Pipe` construction from a template, derived
from the fuel-indexed induction: the template is split at its last separator,
the preceding side is built recursively (a pipe node exactly when a separator
remains), the terminal process takes the remainder template and the leftover
positional arguments, and the stage lists of templates, arguments and stream
modes are as computed. -/
theorem Pipe.init_spec (cmd : List Char) (args : List (List Char))
    (stdin stdout stderr : StreamVal) (kwargs : List (KwKey × StreamVal)) (t : RTree)
    (h : Pipe.init cmd args stdin stdout stderr kwargs = Except.ok t) :
    ∃ l r pre term,
      rsplitPipe cmd = some (l, r) ∧
      t = RTree.pipe pre term ∧
      pre.isPipeNode = decide ('|' ∈ l) ∧
      term._cmd = r ∧ term._args = args.drop (specCountN l) ∧
      term._stdin = _UNDEFINED ∧ term._stdout = stdout ∧ term._stderr = stderr ∧
      term._kwargs = kwargs ∧ term._init_pipe = false ∧
      t.stages.map Process._cmd = splitOnPipe cmd ∧
      t.stages.map Process._args = allocArgs (splitOnPipe cmd) args ∧
      t.stages.map Process._stderr = List.replicate (splitOnPipe cmd).length stderr ∧
      t.stages.map Process._kwargs = List.replicate (splitOnPipe cmd).length kwargs ∧
      t.stages.map Process._stdin =
        stdin :: List.replicate ((splitOnPipe cmd).length - 1) _UNDEFINED ∧
      t.stages.map Process._stdout =
        List.replicate ((splitOnPipe cmd).length - 1)
          (if stderr = PIPE then _UNDEFINED else PIPE) ++ [stdout] :=
  initFuel_spec (cmd.length + 1) cmd args stdin stdout stderr kwargs t h

/-! ## Claim theorems -/

/-- C1: the claim states that for every whitespace-tokenized template and
every argument sequence whose length equals the total placeholder count
(doubled markers counting as zero), `cmdline` returns a concrete argument
vector with one element per token.  The code violates this: whenever the
argument sequence is non-empty, the loop's result is discarded and the
function falls off the end, returning Python `None`.  At the concrete
failing input — a two-token template with one placeholder and exactly one
argument — `cmdline` evaluates to `None` rather than a two-element vector. -/
theorem C1_cmdline_missing_return :
    totalSpecCount ['e', 'c', 'h', 'o', ' ', '%', 's'] = 1 ∧
    [['h', 'i']].length = 1 ∧
    (pySplit ['e', 'c', 'h', 'o', ' ', '%', 's']).length = 2 ∧
    cmdline ['e', 'c', 'h', 'o', ' ', '%', 's'] [['h', 'i']] = Except.ok none := by
  exact ⟨by decide, by decide, by decide, rfl⟩

/-- C2: the claim states that requesting two or more streams in Interact mode
makes construction fail.  The code violates this: `_interactive_count` reads
`self._kwargs`, which can never contain the stream keywords (they are consumed
by the named parameters), so the count is always 0 and the guarding assertion
never fires.  Constructing a Command with both stdin and stdout requested as
INTERACT succeeds, with the stored modes both INTERACT and the computed
interactive count 0. -/
theorem C2_two_interact_construction_succeeds :
    (Process.call ['c', 'a', 't'] []
        [(KwKey.kStdin, INTERACT), (KwKey.kStdout, INTERACT)]).map
      (fun p => (p._stdin, p._stdout, p.interactive_count)) =
    Except.ok (INTERACT, INTERACT, 0) := by
  rfl

/-- C3: the claim states that checking the exit status of a process that
terminated due to a signal raises the distinguished signal-variant error type.
The code violates this: the module's `CompletedProcess` inherits the standard
library's `check_returncode`, which raises the standard library's
CalledProcessError for any nonzero exit code, so for a signal termination
(negative returncode) the raised error's class is the plain standard-library
class — not an instance of the module's CalledProcessSignal, nor even of its
CalledProcessError subclass, and identical in class to a normal nonzero-exit
error. -/
theorem C3_signal_raises_plain_stdlib_error :
    (CompletedProcess.check_returncode
        { cargs := some [['s', 'h']], returncode := -9, stdout := none, stderr := none }).map
      (fun e => (e.cls, isinstance e.cls ErrClass.spawnCalledProcessSignal, e.returncode)) =
    some (ErrClass.subprocessCalledProcessError, false, -9) ∧
    (CompletedProcess.check_returncode
        { cargs := some [['s', 'h']], returncode := 2, stdout := none, stderr := none }).map
      (fun e => e.cls) =
    some ErrClass.subprocessCalledProcessError := by
  exact ⟨by decide, by decide⟩

/-- C4: the claim states that `start()` with a non-null eager input launches a
background thread that writes the input fully to the process's stdin and then
closes that stdin handle.  The code violates the closing half: the launched
thread's body is the bare `stdin.write(input)` call, so at the concrete input
the only started thread performs a single write and no close operation occurs
in any launched thread. -/
theorem C4_input_thread_never_closes_stdin :
    (Process.init ['c', 'a', 't'] [] _UNDEFINED _UNDEFINED _UNDEFINED []).map
      (fun p => (Process.start p (some ['h', 'i'])).map
        (fun sp => (sp.threads,
          sp.threads.any (fun ops => ops.contains StreamOp.closeOp)))) =
    Except.ok (Except.ok ([[StreamOp.writeOp ['h', 'i']]], false)) := by
  rfl

/-- C5: the claim states that `send_signal(signal)` forwards to the OS process
handle's `send_signal` with the given signal as the sole argument.  The code
violates this: the source writes `self._popen.send_signal(self, signal)`,
passing the `Process` object itself as an extra leading argument, which the
handle's one-parameter `send_signal` rejects with a TypeError. -/
theorem C5_send_signal_passes_self_too :
    Process.send_signal_args 15 = [PyVal.procSelf, PyVal.sigVal 15] ∧
    Process.send_signal_args 15 ≠ [PyVal.sigVal 15] ∧
    popenSendSignalAccepts (Process.send_signal_args 15) = false ∧
    Process.terminate_args = [] ∧
    Process.kill_args = [] := by
  exact ⟨by decide, by decide, by decide, by decide, by decide⟩

/-- C7: for every Pipeline, `poll()` and `wait()` delegate to the terminal
stage only: the polled status is exactly the terminal command's status, the
wait result is exactly the terminal command's wait record, and both are
invariant under replacing the preceding stage by any other stage (in
particular, by one that independently failed). -/
theorem C7_poll_wait_delegate_to_terminal :
    ∀ (pre pre2 : RTree) (term : Process) (pollOf : Process → Option Int)
      (outcomeOf : Process → WaitOutcome) (timeout : Option Int),
      Pipe.pollModel pre term pollOf = pollOf term ∧
      Pipe.pollModel pre term pollOf = Pipe.pollModel pre2 term pollOf ∧
      Pipe.waitModel pre term outcomeOf timeout
        = Process.waitModel term (outcomeOf term) timeout ∧
      Pipe.waitModel pre term outcomeOf timeout
        = Pipe.waitModel pre2 term outcomeOf timeout :=
  fun _ _ _ _ _ _ => ⟨rfl, rfl, rfl, rfl⟩

/-- C8: for every Runnable, `run(input, timeout)` equals `start()` followed by
`wait(timeout)` and returns exactly what wait returns: the `run` body is the
inherited base-class method, its result is the bind of the no-argument start
call with the wait call, and it is independent of the `input` argument (which
the source accepts but never forwards).  Instantiated at the Process model's
start and wait. -/
theorem C8_run_equals_start_then_wait :
    ∀ (p : Process) (w : WaitOutcome) (input : Option (List Char)) (timeout : Option Int),
      Runnable.runM (Process.start p) (fun _ => Process.waitModel p w) input timeout
        = (Process.start p none).bind (fun _ => Process.waitModel p w timeout) ∧
      Runnable.runM (Process.start p) (fun _ => Process.waitModel p w) input timeout
        = Runnable.runM (Process.start p) (fun _ => Process.waitModel p w) none timeout :=
  fun _ _ _ _ => ⟨rfl, rfl⟩

/-- C9: the claim states that `wait` may be called with the timeout argument
omitted on every started Runnable, Command or Pipeline alike.  The code
violates this for Commands: `Process.wait` declares its `timeout` parameter
with no default value, so the omitted-argument call raises a TypeError —
including the `self.wait()` call that `Runnable.iterate` itself performs —
while the same call on a Pipeline binds the declared default `None`. -/
theorem C9_process_wait_requires_timeout_argument :
    callWaitOmitted RunnableClass.processC = Except.error PyErr.typeErr ∧
    iterateWaitCall RunnableClass.processC = Except.error PyErr.typeErr ∧
    callWaitOmitted RunnableClass.pipeC = Except.ok none ∧
    iterateWaitCall RunnableClass.pipeC = Except.ok none := by
  exact ⟨rfl, rfl, rfl, rfl⟩

/-- C6: for every template containing a pipe separator, construction splits the
template at the last separator — the decomposition with no separator in the
right part — into a preceding sub-template and a terminal command: the built
object is a pipe node whose terminal process holds the remainder template and
the positional arguments left after the preceding side consumed its
placeholder count, the preceding side is itself a pipe node exactly when its
template still contains a separator (so a three-command template groups as a
left-nested pipe of a pipe), and across the flattened stages the templates are
the separator-split segments with the positional arguments allocated to the
preceding stages first, the final command receiving the remainder. -/
theorem C6_pipeline_splits_at_last_separator
    (cmd l r : List Char) (args : List (List Char))
    (stdin stdout stderr : StreamVal) (kwargs : List (KwKey × StreamVal)) (t : RTree)
    (hdec : cmd = l ++ '|' :: r) (hnr : '|' ∉ r)
    (h : Pipe.init cmd args stdin stdout stderr kwargs = Except.ok t) :
    t.isPipeNode = true ∧
    (t.terminalProc)._cmd = r ∧
    (t.terminalProc)._args = args.drop (specCountN l) ∧
    (t.precedingOf).isPipeNode = decide ('|' ∈ l) ∧
    t.stages.map Process._cmd = splitOnPipe l ++ [r] ∧
    t.stages.map Process._args = allocArgs (splitOnPipe l ++ [r]) args := by
  obtain ⟨l2, r2, pre, term, hr2, ht, hpn, htc, hta, _h1, _h2, _h3, _h4, _h5,
    hcm, hag, _h6, _h7, _h8, _h9⟩ :=
    Pipe.init_spec cmd args stdin stdout stderr kwargs t h
  have hrs : rsplitPipe cmd = some (l, r) := by
    rw [hdec]
    exact rsplitPipe_last l r hnr
  rw [hrs] at hr2
  have hlr : l = l2 ∧ r = r2 := by
    have := Option.some.inj hr2
    exact ⟨congrArg Prod.fst this, congrArg Prod.snd this⟩
  obtain ⟨hl2, hr2b⟩ := hlr
  subst hl2
  subst hr2b
  have hsplit : splitOnPipe cmd = splitOnPipe l ++ [r] := by
    rw [hdec]
    exact splitOnPipe_append l r hnr
  subst ht
  refine ⟨rfl, htc, hta, hpn, ?_, ?_⟩
  · rw [← hsplit]
    exact hcm
  · rw [← hsplit]
    exact hag

/-- C6 witness: the concrete three-stage template a-bar-b-bar-c with no
positional arguments and captured stdout; the last-separator decomposition,
the terminal stage, the left-nested preceding pipe, and the per-stage
template and argument allocation are checked on the built value. -/
theorem C6_pipeline_splits_witness :
    (pipeABC).isPipeNode = true ∧
    (pipeABC.terminalProc)._cmd = [' ', 'c'] ∧
    (pipeABC.terminalProc)._args
      = List.drop (specCountN ['a', ' ', '|', ' ', 'b', ' ']) [] ∧
    (pipeABC.precedingOf).isPipeNode = decide ('|' ∈ ['a', ' ', '|', ' ', 'b', ' ']) ∧
    pipeABC.stages.map Process._cmd
      = splitOnPipe ['a', ' ', '|', ' ', 'b', ' '] ++ [[' ', 'c']] ∧
    pipeABC.stages.map Process._args
      = allocArgs (splitOnPipe ['a', ' ', '|', ' ', 'b', ' '] ++ [[' ', 'c']]) [] :=
  C6_pipeline_splits_at_last_separator
    ['a', ' ', '|', ' ', 'b', ' ', '|', ' ', 'c']
    ['a', ' ', '|', ' ', 'b', ' '] [' ', 'c'] []
    _UNDEFINED CAPTURE _UNDEFINED [] pipeABC
    (by decide) (by decide) rfl

/-- C10 counterexample: the claim says each preceding stage's stdout is forced
into Pipe mode.  Passing stderr as the PIPE sentinel to the constructor
refutes this: construction succeeds, yet the built two-stage pipeline's stdout
modes are both `_UNDEFINED` — the preceding stage's stdout is left at the
default because `_prepare_pipe` skips the forcing when stderr is already PIPE. -/
theorem C10_stderr_pipe_counterexample :
    (Pipe.init ['a', ' ', '|', ' ', 'b'] [] _UNDEFINED _UNDEFINED PIPE []).map
      (fun t => t.stages.map Process._stdout) = Except.ok [_UNDEFINED, _UNDEFINED] ∧
    _UNDEFINED ≠ PIPE := by
  exact ⟨rfl, by decide⟩

/-- C10 (amended): when a Pipeline is constructed from a template containing
pipe separators, the stderr mode and the extra keyword options given to the
constructor are applied to every stage, the stdin mode is applied only to the
first stage (every later stage gets the undefined default, to be wired to the
preceding pipe end at start), and the stdout mode is applied only to the
terminal stage — each preceding stage's stdout being forced into Pipe mode
unless the given stderr mode is itself Pipe, in which case every preceding
stage's stdout is left at the undefined default. -/
theorem C10_stage_modes_amended
    (cmd : List Char) (args : List (List Char))
    (stdin stdout stderr : StreamVal) (kwargs : List (KwKey × StreamVal)) (t : RTree)
    (h : Pipe.init cmd args stdin stdout stderr kwargs = Except.ok t) :
    2 ≤ t.stages.length ∧
    t.stages.map Process._stderr = List.replicate t.stages.length stderr ∧
    t.stages.map Process._kwargs = List.replicate t.stages.length kwargs ∧
    t.stages.map Process._stdin
      = stdin :: List.replicate (t.stages.length - 1) _UNDEFINED ∧
    t.stages.map Process._stdout
      = List.replicate (t.stages.length - 1)
          (if stderr = PIPE then _UNDEFINED else PIPE) ++ [stdout] := by
  obtain ⟨l, r, pre, term, hr2, ht, _hpn, _htc, _hta, _h1, _h2, _h3, _h4, _h5,
    hcm, _hag, hse, hkw, hsi, hso⟩ :=
    Pipe.init_spec cmd args stdin stdout stderr kwargs t h
  have hlen : t.stages.length = (splitOnPipe cmd).length := by
    have := congrArg List.length hcm
    simpa using this
  obtain ⟨hdec, hnr⟩ := rsplitPipe_some cmd l r hr2
  have hsplit : splitOnPipe cmd = splitOnPipe l ++ [r] := by
    rw [hdec]
    exact splitOnPipe_append l r hnr
  have hm1 : 1 ≤ (splitOnPipe l).length :=
    Nat.one_le_iff_ne_zero.mpr
      (fun h0 => splitOnPipe_ne_nil l (List.length_eq_zero.mp h0))
  have h2le : 2 ≤ t.stages.length := by
    rw [hlen, hsplit]
    simp
    omega
  exact ⟨h2le, by rw [hlen]; exact hse, by rw [hlen]; exact hkw,
    by rw [hlen]; exact hsi, by rw [hlen]; exact hso⟩

/-- C10 witness: the concrete three-stage template a-bar-b-bar-c constructed
with stdin redirected to the caller's stdin, ignored stdout, captured stderr
and one pass-through keyword option; the per-stage mode lists are checked on
the built value. -/
theorem C10_stage_modes_witness :
    2 ≤ pipeEnvABC.stages.length ∧
    pipeEnvABC.stages.map Process._stderr
      = List.replicate pipeEnvABC.stages.length CAPTURE ∧
    pipeEnvABC.stages.map Process._kwargs
      = List.replicate pipeEnvABC.stages.length [(KwKey.kEnv, StreamVal.fileObj 7)] ∧
    pipeEnvABC.stages.map Process._stdin
      = STDIN :: List.replicate (pipeEnvABC.stages.length - 1) _UNDEFINED ∧
    pipeEnvABC.stages.map Process._stdout
      = List.replicate (pipeEnvABC.stages.length - 1)
          (if CAPTURE = PIPE then _UNDEFINED else PIPE) ++ [IGNORE] :=
  C10_stage_modes_amended
    ['a', ' ', '|', ' ', 'b', ' ', '|', ' ', 'c'] []
    STDIN IGNORE CAPTURE [(KwKey.kEnv, StreamVal.fileObj 7)] pipeEnvABC rfl
